import Mathlib

/-
Verification of the pgwire proxy's query/response translation core.

The definitions below are a shallow embedding of the two source files:
  src/src/api/mod.rs   (ProxyProcessor: SimpleQueryHandler and
                        ExtendedQueryHandler impls, encode_query_response,
                        encode_simple_query_response)
  src/examples/proxy.rs (the same ProxyProcessor example)
External collaborators (the tokio_postgres driver and the wire codec) are
represented as inputs: the simple-query upstream outcome is a value of type
Except UpstreamError (List SimpleQueryMessage), and the extended-query
upstream call is a function argument.
-/

namespace PgProxy

/-- A field value as delivered by the upstream driver. `unrepresentable`
stands for a value that cannot be represented in the requested wire format
(spec section 7, EncodingError). -/
inductive Value where
  | str : String → Value
  | unrepresentable : Value
deriving DecidableEq, Repr

/-- A nullable field: `none` is SQL NULL. -/
abbrev FieldValue := Option Value

/-- tokio_postgres SimpleQueryRow: the fields of one row of a simple-query
result. -/
structure SimpleQueryRow where
  fields : List FieldValue
deriving DecidableEq, Repr

/-- tokio_postgres SimpleQueryMessage as matched by the simple query handler:
a CommandComplete with an affected-row count, a data Row, or any other
message (ignored by the handler's catch-all arm). -/
inductive SimpleQueryMessage where
  | commandComplete : Nat → SimpleQueryMessage
  | row : SimpleQueryRow → SimpleQueryMessage
  | other : SimpleQueryMessage
deriving DecidableEq, Repr

/-- An error reported by the upstream driver. -/
structure UpstreamError where
  msg : String
deriving DecidableEq, Repr

/-- PgWireError as produced in the source: only the ApiError wrapping of an
upstream driver error occurs in these files. -/
inductive PgWireError where
  | apiError : UpstreamError → PgWireError
deriving DecidableEq, Repr

/-- pgwire Tag: a command name and an optional affected-row count. -/
structure Tag where
  command : String
  rows : Option Nat
deriving DecidableEq, Repr

/-- Tag::new_for_execution as called in the source. -/
def Tag.new_for_execution (command : String) (rows : Option Nat) : Tag :=
  { command := command, rows := rows }

/-- Result format of a column: text or binary. -/
inductive FieldFormat where
  | text
  | binary
deriving DecidableEq, Repr

/-- The row-set response built by mod.rs encode_simple_query_response. The
source builds its encoder through an unimplemented stub (DataRowEncoder::new
in mod.rs is a bare todo) and passes an empty vector as the schema; the model
records that empty schema and the row group handed to the encoder, which is
what the demultiplexing claims observe. -/
structure SQueryResponse where
  schema : List (String × FieldFormat)
  rows : List SimpleQueryRow
deriving DecidableEq, Repr

/-- encode_simple_query_response (src/src/api/mod.rs lines 265-277): schema is
the empty vector, the buffered row group is handed to the encoder. -/
def encode_simple_query_response (rows : List SimpleQueryRow) : SQueryResponse :=
  { schema := [], rows := rows }

/-- Response as produced by the simple query handler: an Execution tag or a
Query row set (the only two constructors the source ever builds). -/
inductive SimpleResponse where
  | Execution : Tag → SimpleResponse
  | Query : SQueryResponse → SimpleResponse
deriving DecidableEq, Repr

/-- Loop state of ProxyProcessor::do_query (SimpleQueryHandler): the responses
pushed so far and the row buffer. -/
structure SimpleLoopState where
  downstream_response : List SimpleResponse
  row_buf : List SimpleQueryRow
deriving DecidableEq, Repr

/-- One iteration of the for-loop in ProxyProcessor::do_query
(SimpleQueryHandler), src/src/api/mod.rs lines 196-213: a CommandComplete
with an empty buffer pushes an Execution tag built as
Tag::new_for_execution with the empty command name and the count; with a
nonempty buffer it pushes a Query response encoding the buffer (note the
source never clears row_buf afterwards); a Row message is pushed onto the
buffer; any other message is ignored. -/
def simple_step (st : SimpleLoopState) (resp : SimpleQueryMessage) : SimpleLoopState :=
  match resp with
  | SimpleQueryMessage.commandComplete count =>
      if st.row_buf.isEmpty then
        { st with downstream_response :=
            st.downstream_response ++
              [SimpleResponse.Execution (Tag.new_for_execution "" (some count))] }
      else
        { st with downstream_response :=
            st.downstream_response ++
              [SimpleResponse.Query (encode_simple_query_response st.row_buf)] }
  | SimpleQueryMessage.row r => { st with row_buf := st.row_buf ++ [r] }
  | SimpleQueryMessage.other => st

/-- ProxyProcessor::do_query (SimpleQueryHandler), src/src/api/mod.rs lines
180-216: forwards the query text upstream; an upstream error is wrapped as
ApiError and returned (the driver's simple_query yields either the whole
message list or a bare error, so a mid-batch failure carries no partial
results); on success the message list is folded through the translation loop
starting from empty response list and empty row buffer. -/
def do_query_simple (upstream : Except UpstreamError (List SimpleQueryMessage)) :
    Except PgWireError (List SimpleResponse) :=
  match upstream with
  | Except.error e => Except.error (PgWireError.apiError e)
  | Except.ok msgs =>
      Except.ok
        ((List.foldl simple_step { downstream_response := [], row_buf := [] } msgs).downstream_response)

/-- A wire-level field: the NULL marker or encoded bytes. -/
inductive WireField where
  | null
  | bytes : String → WireField
deriving DecidableEq, Repr

/-- The error value of a failed field encoding. -/
structure EncodeError where
  msg : String
deriving DecidableEq, Repr

/-- Modelled from the spec: DataRowEncoder::encode_field lives in
api/results.rs, which is not under src/; only its call sites are. Spec
section 4.1: a field that is SQL NULL encodes to a NULL marker regardless of
type; spec sections 4.1 and 7: a value that cannot be represented in the
requested wire format is an EncodingError, returned as an error value. -/
def encode_field : FieldValue → Except EncodeError WireField
  | none => Except.ok WireField.null
  | some (Value.str s) => Except.ok (WireField.bytes s)
  | some Value.unrepresentable =>
      Except.error { msg := "cannot represent value in requested format" }

/-- Outcome of code that may call Result::unwrap: a value, or a panic. -/
inductive EncodeOutcome (α : Type) where
  | ok : α → EncodeOutcome α
  | panicked : EncodeOutcome α
deriving DecidableEq, Repr

/-- Rust Result::unwrap as written at every encode_field call site in the
source: an Err aborts the thread (a panic), discarding the error value. -/
def unwrapE {α : Type} (r : Except EncodeError α) : EncodeOutcome α :=
  match r with
  | Except.ok a => EncodeOutcome.ok a
  | Except.error _ => EncodeOutcome.panicked

/-- tokio_postgres Row as used by encode_query_response. -/
structure Row where
  fields : List FieldValue
deriving DecidableEq, Repr

/-- row.get(index) as written in encode_query_response: Some(value) for a
present value, None for SQL NULL; an index beyond the row's arity also
yields None in this model (the source indexes by the static schema, not by
the row's own arity). -/
def Row.get (r : Row) (i : Nat) : FieldValue :=
  r.fields.getD i none

/-- The static placeholder schema hardcoded in encode_query_response
(src/src/api/mod.rs lines 355-360, src/examples/proxy.rs lines 67-71). -/
def proxySchema : List (String × FieldFormat) :=
  [("column1", FieldFormat.text), ("column2", FieldFormat.text)]

/-- The inner field loop of encode_query_response applied to a list of
fetched fields: encode each, unwrapping the encoder result, so a single
failed field aborts the whole translation. -/
def encodeFieldsUnwrap : List FieldValue → EncodeOutcome (List WireField)
  | [] => EncodeOutcome.ok []
  | f :: fs =>
      match unwrapE (encode_field f) with
      | EncodeOutcome.panicked => EncodeOutcome.panicked
      | EncodeOutcome.ok w =>
          match encodeFieldsUnwrap fs with
          | EncodeOutcome.panicked => EncodeOutcome.panicked
          | EncodeOutcome.ok ws => EncodeOutcome.ok (w :: ws)

/-- One encoded data row. -/
structure DataRow where
  fields : List WireField
deriving DecidableEq, Repr

/-- Encode one Row against a schema: the source iterates the schema's indices
(0 .. schema.len), fetches row.get(index) and encodes it with unwrap. -/
def encodeRowFields (schema : List (String × FieldFormat)) (r : Row) :
    EncodeOutcome DataRow :=
  match encodeFieldsUnwrap ((List.range schema.length).map (fun i => Row.get r i)) with
  | EncodeOutcome.panicked => EncodeOutcome.panicked
  | EncodeOutcome.ok ws => EncodeOutcome.ok { fields := ws }

/-- The outer row loop of encode_query_response. -/
def encodeRows (schema : List (String × FieldFormat)) :
    List Row → EncodeOutcome (List DataRow)
  | [] => EncodeOutcome.ok []
  | r :: rs =>
      match encodeRowFields schema r with
      | EncodeOutcome.panicked => EncodeOutcome.panicked
      | EncodeOutcome.ok d =>
          match encodeRows schema rs with
          | EncodeOutcome.panicked => EncodeOutcome.panicked
          | EncodeOutcome.ok ds => EncodeOutcome.ok (d :: ds)

/-- QueryResponse: a column schema plus encoded data rows. -/
structure QueryResponse where
  schema : List (String × FieldFormat)
  rows : List DataRow
deriving DecidableEq, Repr

/-- encode_query_response (src/examples/proxy.rs lines 65-97,
src/src/api/mod.rs lines 354-380): the schema is the hardcoded two-column
text placeholder; each row is encoded field by field with unwrap on every
encoder call; the response pairs the static schema with the encoded rows. -/
def encode_query_response (rows : List Row) : EncodeOutcome QueryResponse :=
  match encodeRows proxySchema rows with
  | EncodeOutcome.panicked => EncodeOutcome.panicked
  | EncodeOutcome.ok ds => EncodeOutcome.ok { schema := proxySchema, rows := ds }

/-- Modelled from the spec: a reference client's decoding of one wire field
(the client side is outside this repository). The NULL marker decodes to SQL
NULL; bytes decode to their string value. -/
def decode_wire_field : WireField → Option String
  | WireField.null => none
  | WireField.bytes s => some s

/-- pgwire StoredStatement: holds the query text. -/
structure StoredStatement where
  statement : String
deriving DecidableEq, Repr

/-- pgwire Portal: the stored statement plus the client's bound parameter
values. The source's extended do_query never reads the parameters. -/
structure Portal where
  statement : StoredStatement
  parameters : List Value
deriving DecidableEq, Repr

/-- Response as produced by the extended query handler. -/
inductive ExtResponse where
  | Execution : Tag → ExtResponse
  | Query : QueryResponse → ExtResponse
deriving DecidableEq, Repr

/-- ProxyProcessor::do_query (ExtendedQueryHandler), src/src/api/mod.rs lines
311-326 and src/examples/proxy.rs lines 128-144: runs the portal's statement
upstream with the always-empty parameter vector built at the call site (the
portal's bound parameters are not extracted), ignores max_rows entirely, and
wraps all returned rows as a Query response via encode_query_response; an
upstream error is wrapped as ApiError. upstream_query is the external driver
call (query text and parameter list to rows or error). -/
def do_query_extended
    (upstream_query : String → List Value → Except UpstreamError (List Row))
    (portal : Portal) (max_rows : Nat) :
    EncodeOutcome (Except PgWireError ExtResponse) :=
  match upstream_query portal.statement.statement ([] : List Value) with
  | Except.error e => EncodeOutcome.ok (Except.error (PgWireError.apiError e))
  | Except.ok rows =>
      match encode_query_response rows with
      | EncodeOutcome.panicked => EncodeOutcome.panicked
      | EncodeOutcome.ok qr => EncodeOutcome.ok (Except.ok (ExtResponse.Query qr))

/-- Number of data rows in an extended-query result, when one was produced. -/
def extRowCount : EncodeOutcome (Except PgWireError ExtResponse) → Option Nat
  | EncodeOutcome.ok (Except.ok (ExtResponse.Query qr)) => some qr.rows.length
  | _ => none

/-- Recognizer for CommandComplete messages. -/
def isCommandComplete : SimpleQueryMessage → Bool
  | SimpleQueryMessage.commandComplete _ => true
  | _ => false

/-- Concrete inputs used by the witnesses and counterexamples below. -/
def eBoom : UpstreamError := { msg := "relation does not exist" }

def rowA : SimpleQueryRow := { fields := [some (Value.str "a")] }

def rowB : SimpleQueryRow := { fields := [some (Value.str "b")] }

def rowOne : Row := { fields := [some (Value.str "1")] }

def rowN (s : String) : Row := { fields := [some (Value.str s)] }

def upstreamThree : String → List Value → Except UpstreamError (List Row) :=
  fun _ _ => Except.ok [rowN "1", rowN "2", rowN "3"]

def portalSel : Portal :=
  { statement := { statement := "SELECT x FROM t" }, parameters := [] }

def qrThree : QueryResponse :=
  { schema := proxySchema,
    rows := [{ fields := [WireField.bytes "1", WireField.null] },
             { fields := [WireField.bytes "2", WireField.null] },
             { fields := [WireField.bytes "3", WireField.null] }] }

def rowBad : Row := { fields := [some Value.unrepresentable] }

def portalParam : Portal :=
  { statement := { statement := "UPDATE t SET x = $1" },
    parameters := [Value.str "42"] }

/-- An upstream oracle that observes whether parameters were passed: it
errors exactly when called with a nonempty parameter list. -/
def upstreamParamProbe : String → List Value → Except UpstreamError (List Row) :=
  fun _ ps => if ps.isEmpty then Except.ok [] else Except.error { msg := "params received" }

/-- Helper: the translation loop emits exactly one response per
CommandComplete message, regardless of start state. -/
theorem simple_loop_length (msgs : List SimpleQueryMessage) :
    ∀ st : SimpleLoopState,
      ((List.foldl simple_step st msgs).downstream_response).length =
        st.downstream_response.length + List.countP isCommandComplete msgs := by
  induction msgs with
  | nil => intro st; simp
  | cons m ms ih =>
      intro st
      cases m with
      | commandComplete c =>
          by_cases hb : st.row_buf.isEmpty
          · simp only [List.foldl, simple_step, hb, if_true, List.countP_cons, ih]
            simp [isCommandComplete]
            omega
          · simp only [List.foldl, simple_step, hb, if_false, List.countP_cons, ih]
            simp [isCommandComplete]
            omega
      | row r =>
          simp only [List.foldl, simple_step, List.countP_cons, ih]
          simp [isCommandComplete]
      | other =>
          simp only [List.foldl, simple_step, List.countP_cons, ih]
          simp [isCommandComplete]

/-- Helper: every Execution tag the translation loop ever appends carries the
empty command name, so the property is preserved from any start state that
already satisfies it. -/
theorem simple_loop_exec_command (msgs : List SimpleQueryMessage) :
    ∀ st : SimpleLoopState,
      (∀ t : Tag, SimpleResponse.Execution t ∈ st.downstream_response → t.command = "") →
      ∀ t : Tag,
        SimpleResponse.Execution t ∈ (List.foldl simple_step st msgs).downstream_response →
        t.command = "" := by
  induction msgs with
  | nil => intro st h t ht; exact h t ht
  | cons m ms ih =>
      intro st h t ht
      refine ih (simple_step st m) ?_ t ht
      intro u hu
      cases m with
      | commandComplete c =>
          by_cases hb : st.row_buf.isEmpty
          · simp [simple_step, hb] at hu
            rcases hu with hu | hu
            · exact h u hu
            · rw [hu]
              rfl
          · simp [simple_step, hb] at hu
            exact h u hu
      | row r =>
          simp only [simple_step] at hu
          exact h u hu
      | other =>
          simp only [simple_step] at hu
          exact h u hu

/-- Helper: when the field loop succeeds, a NULL input field yields the NULL
marker at the same position of the output. -/
theorem encodeFieldsUnwrap_null (l : List FieldValue) :
    ∀ ws : List WireField, encodeFieldsUnwrap l = EncodeOutcome.ok ws →
      ∀ i : Nat, l.get? i = some none → ws.get? i = some WireField.null := by
  induction l with
  | nil =>
      intro ws hws i hi
      simp at hi
  | cons f fs ih =>
      intro ws hws i hi
      cases hf : unwrapE (encode_field f) with
      | panicked => simp [encodeFieldsUnwrap, hf] at hws
      | ok w =>
          cases hrest : encodeFieldsUnwrap fs with
          | panicked => simp [encodeFieldsUnwrap, hf, hrest] at hws
          | ok ws2 =>
              have hcons : EncodeOutcome.ok (w :: ws2) = EncodeOutcome.ok ws := by
                rw [← hws]
                simp [encodeFieldsUnwrap, hf, hrest]
              have hws2 : ws = w :: ws2 := by
                cases hcons
                rfl
              subst hws2
              cases i with
              | zero =>
                  simp only [List.get?] at hi
                  have hfnone : f = none := by
                    cases hi
                    rfl
                  subst hfnone
                  have : w = WireField.null := by
                    simp [encode_field, unwrapE] at hf
                    exact hf.symm
                  subst this
                  rfl
              | succ j =>
                  simp only [List.get?] at hi ⊢
                  exact ih ws2 hrest j hi

/-- Helper: the row loop preserves the number of rows when it succeeds. -/
theorem encodeRows_length (schema : List (String × FieldFormat)) (rows : List Row) :
    ∀ ds : List DataRow, encodeRows schema rows = EncodeOutcome.ok ds →
      ds.length = rows.length := by
  induction rows with
  | nil =>
      intro ds h
      have : EncodeOutcome.ok ([] : List DataRow) = EncodeOutcome.ok ds := by
        rw [← h]; rfl
      cases this
      rfl
  | cons r rs ih =>
      intro ds h
      cases hd : encodeRowFields schema r with
      | panicked => simp [encodeRows, hd] at h
      | ok d =>
          cases hds : encodeRows schema rs with
          | panicked => simp [encodeRows, hd, hds] at h
          | ok ds2 =>
              have hcons : EncodeOutcome.ok (d :: ds2) = EncodeOutcome.ok ds := by
                rw [← h]
                simp [encodeRows, hd, hds]
              have : ds = d :: ds2 := by
                cases hcons
                rfl
              subst this
              simp [ih ds2 hds]

/-- C1 counterexample: when the upstream reports a mid-batch error, do_query
returns a bare forwarded error carrying no Responses at all; the already
completed statements' results are not returned (the claim requires them to
precede the error). -/
theorem c1_counterexample :
    do_query_simple (Except.error eBoom) = Except.error (PgWireError.apiError eBoom) ∧
      (do_query_simple (Except.error eBoom)).toOption = none ∧
      (do_query_simple (Except.error eBoom)).isOk = false := by
  exact ⟨rfl, rfl, rfl⟩

/-- C1 (amended): for an all-success batch, do_query returns exactly one
Response per upstream completion notice (N for an N-statement batch),
produced in arrival order by a single left-to-right pass over the upstream
messages; on an upstream error it returns only the forwarded ApiError, with
no preceding successful Responses. -/
theorem c1_batch_responses (msgs : List SimpleQueryMessage) (e : UpstreamError) :
    (∃ rs : List SimpleResponse,
        do_query_simple (Except.ok msgs) = Except.ok rs ∧
          rs.length = List.countP isCommandComplete msgs) ∧
      do_query_simple (Except.error e) = Except.error (PgWireError.apiError e) := by
  constructor
  · refine ⟨_, rfl, ?_⟩
    have h := simple_loop_length msgs { downstream_response := [], row_buf := [] }
    simpa using h
  · rfl

/-- C2: the row buffer is never cleared after a completion notice, so the
second statement's Row Set contains the first statement's row as well: for
the upstream sequence Row a, CommandComplete, Row b, CommandComplete the
handler emits row groups containing a and then a followed by b, instead of a and then b. -/
theorem c2_buffer_not_cleared :
    do_query_simple (Except.ok
        [SimpleQueryMessage.row rowA, SimpleQueryMessage.commandComplete 1,
         SimpleQueryMessage.row rowB, SimpleQueryMessage.commandComplete 1]) =
      Except.ok
        [SimpleResponse.Query { schema := [], rows := [rowA] },
         SimpleResponse.Query { schema := [], rows := [rowA, rowB] }] := by
  rfl

/-- C3: the Column Descriptor list is the hardcoded two-column placeholder,
not inferred from the first row: encoding the single one-column row of
SELECT 1 yields the static schema column1, column2 and pads the missing
second field with NULL, instead of one inferred column carrying value 1. -/
theorem c3_static_schema :
    encode_query_response [rowOne] =
      EncodeOutcome.ok
        { schema := [("column1", FieldFormat.text), ("column2", FieldFormat.text)],
          rows := [{ fields := [WireField.bytes "1", WireField.null] }] } := by
  rfl

/-- C4 counterexample: with max_rows = 2 over a three-row upstream result the
extended do_query returns all 3 rows in the one call. -/
theorem c4_counterexample :
    extRowCount (do_query_extended upstreamThree portalSel 2) = some 3 := by
  rfl

/-- C4 (amended): the extended do_query ignores max_rows entirely: the result
is identical for every max_rows value, it is the full upstream row set
wrapped as a Query response, and the number of returned data rows equals the
number of upstream rows; there is no slicing and no resumption state, so a
repeated execute re-runs the query and returns the full set again. -/
theorem c4_max_rows_ignored
    (f : String → List Value → Except UpstreamError (List Row))
    (p : Portal) (m n : Nat) (rows : List Row) (qr : QueryResponse)
    (hup : f p.statement.statement ([] : List Value) = Except.ok rows)
    (henc : encode_query_response rows = EncodeOutcome.ok qr) :
    do_query_extended f p m = do_query_extended f p n ∧
      do_query_extended f p m = EncodeOutcome.ok (Except.ok (ExtResponse.Query qr)) ∧
      qr.rows.length = rows.length := by
  refine ⟨rfl, ?_, ?_⟩
  · simp [do_query_extended, hup, henc]
  · cases hds : encodeRows proxySchema rows with
    | panicked => simp [encode_query_response, hds] at henc
    | ok ds =>
        have hqr : qr = { schema := proxySchema, rows := ds } := by
          have : EncodeOutcome.ok { schema := proxySchema, rows := ds } = EncodeOutcome.ok qr := by
            rw [← henc]
            simp [encode_query_response, hds]
          cases this
          rfl
        subst hqr
        simpa using encodeRows_length proxySchema rows ds hds

/-- C4 witness: the amended theorem applied to the concrete three-row
upstream and the portal of the scenario. -/
theorem c4_max_rows_ignored_witness :
    do_query_extended upstreamThree portalSel 2 = do_query_extended upstreamThree portalSel 0 ∧
      do_query_extended upstreamThree portalSel 2 =
        EncodeOutcome.ok (Except.ok (ExtResponse.Query qrThree)) ∧
      qrThree.rows.length = 3 := by
  have h := c4_max_rows_ignored upstreamThree portalSel 2 0
    [rowN "1", rowN "2", rowN "3"] qrThree rfl rfl
  exact ⟨h.1, h.2.1, by simpa using h.2.2⟩

/-- C5: a SQL NULL field encodes to the wire NULL marker at its position of
the encoded data row, and the reference client decodes the NULL marker back
to SQL NULL, which is distinct from the empty-string placeholder. -/
theorem null_field_encodes_to_null_marker
    (r : Row) (i : Nat) (d : DataRow)
    (hi : i < proxySchema.length)
    (hnull : Row.get r i = none)
    (henc : encodeRowFields proxySchema r = EncodeOutcome.ok d) :
    d.fields.get? i = some WireField.null ∧
      decode_wire_field WireField.null = none ∧
      WireField.null ≠ WireField.bytes "" := by
  refine ⟨?_, rfl, by decide⟩
  cases hws : encodeFieldsUnwrap ((List.range proxySchema.length).map (fun j => Row.get r j)) with
  | panicked => simp [encodeRowFields, hws] at henc
  | ok ws =>
      have hd : d = { fields := ws } := by
        have : EncodeOutcome.ok ({ fields := ws } : DataRow) = EncodeOutcome.ok d := by
          rw [← henc]
          simp [encodeRowFields, hws]
        cases this
        rfl
      subst hd
      have hget : ((List.range proxySchema.length).map (fun j => Row.get r j)).get? i =
          some none := by
        rw [List.get?_map, List.get?_range hi]
        simp [hnull]
      exact encodeFieldsUnwrap_null _ ws hws i hget

/-- C5 witness: a concrete row whose first field is NULL encodes to the NULL
marker in position 0, and the marker decodes back to NULL. -/
theorem null_field_encodes_to_null_marker_witness :
    ({ fields := [WireField.null, WireField.bytes "x"] } : DataRow).fields.get? 0 =
        some WireField.null ∧
      decode_wire_field WireField.null = none ∧
      WireField.null ≠ WireField.bytes "" :=
  null_field_encodes_to_null_marker
    { fields := [none, some (Value.str "x")] } 0
    { fields := [WireField.null, WireField.bytes "x"] }
    (by decide) rfl rfl

/-- C6: a field whose value cannot be represented in the requested wire
format makes the translator panic through unwrap: the whole call aborts,
even though the encoder did produce a distinct value-carrying error that the
call site discards. -/
theorem c6_encode_failure_panics :
    encode_query_response [rowBad] = EncodeOutcome.panicked ∧
      encode_field (some Value.unrepresentable) =
        Except.error { msg := "cannot represent value in requested format" } := by
  exact ⟨rfl, rfl⟩

/-- C7 counterexample: a completion notice with count 3 and no buffered rows
yields the Execution tag with the empty command name and count 3, not the
tag UPDATE with count 3. -/
theorem c7_counterexample :
    do_query_simple (Except.ok [SimpleQueryMessage.commandComplete 3]) =
      Except.ok [SimpleResponse.Execution { command := "", rows := some 3 }] ∧
      ({ command := "", rows := some 3 } : Tag) ≠ { command := "UPDATE", rows := some 3 } := by
  exact ⟨rfl, by decide⟩

/-- C7 (amended): every Execution tag the simple query handler emits carries
the empty command name (the upstream completion notice delivers only the
affected-row count, so the command name is never available) together with
the count. -/
theorem c7_execution_tag_empty_command (msgs : List SimpleQueryMessage) (t : Tag)
    (rs : List SimpleResponse)
    (hok : do_query_simple (Except.ok msgs) = Except.ok rs)
    (ht : SimpleResponse.Execution t ∈ rs) :
    t.command = "" := by
  have hrs : rs =
      (List.foldl simple_step { downstream_response := [], row_buf := [] } msgs).downstream_response := by
    have h := hok.symm
    simp only [do_query_simple] at h
    cases h
    rfl
  subst hrs
  refine simple_loop_exec_command msgs { downstream_response := [], row_buf := [] } ?_ t ht
  intro u hu
  simp at hu

/-- C7 witness: the amended theorem applied to the single completion notice
with count 3. -/
theorem c7_execution_tag_empty_command_witness :
    ({ command := "", rows := some 3 } : Tag).command = "" :=
  c7_execution_tag_empty_command [SimpleQueryMessage.commandComplete 3]
    { command := "", rows := some 3 }
    [SimpleResponse.Execution { command := "", rows := some 3 }]
    rfl (by simp)

/-- C8: the portal's bound parameter is silently dropped: although the portal
binds the value 42, the upstream is called with the empty parameter list, as
witnessed by an oracle that errors whenever it receives any parameter. -/
theorem c8_parameters_dropped :
    portalParam.parameters = [Value.str "42"] ∧
      do_query_extended upstreamParamProbe portalParam 0 =
        EncodeOutcome.ok (Except.ok (ExtResponse.Query { schema := proxySchema, rows := [] })) := by
  exact ⟨rfl, rfl⟩

/-- C9 counterexample: for the empty query the upstream driver delivers no
statement results, and do_query returns the empty response list: zero
responses, not a single empty-query response (indeed the handler's response
type has no empty-query constructor at all). -/
theorem c9_counterexample :
    do_query_simple (Except.ok []) = Except.ok [] ∧
      (do_query_simple (Except.ok [])).map List.length = Except.ok 0 := by
  exact ⟨rfl, rfl⟩

/-- C9 (amended): the empty query is forwarded upstream like any other text
and does not return an error: do_query yields Ok for every successfully
delivered upstream message list, and for the empty query (no upstream
statement results) the returned response list is empty; the single
empty-query wire response of the protocol is not constructed by do_query. -/
theorem c9_empty_query_no_error (msgs : List SimpleQueryMessage) :
    (do_query_simple (Except.ok msgs)).isOk = true ∧
      do_query_simple (Except.ok []) = Except.ok [] := by
  exact ⟨rfl, rfl⟩

/-- C10: whenever the extended query handler's do_query returns a response,
that response is a Query row set; it never returns an Execution tag, even
for statements that produce no rows. -/
theorem c10_extended_always_query
    (f : String → List Value → Except UpstreamError (List Row))
    (p : Portal) (m : Nat) (resp : ExtResponse)
    (h : do_query_extended f p m = EncodeOutcome.ok (Except.ok resp)) :
    ∃ qr : QueryResponse, resp = ExtResponse.Query qr := by
  cases hu : f p.statement.statement ([] : List Value) with
  | error e =>
      have hd : do_query_extended f p m =
          EncodeOutcome.ok (Except.error (PgWireError.apiError e)) := by
        simp [do_query_extended, hu]
      rw [hd] at h
      simp at h
  | ok rows =>
      cases he : encode_query_response rows with
      | panicked =>
          have hd : do_query_extended f p m = EncodeOutcome.panicked := by
            simp [do_query_extended, hu, he]
          rw [hd] at h
          simp at h
      | ok qr =>
          have hd : do_query_extended f p m =
              EncodeOutcome.ok (Except.ok (ExtResponse.Query qr)) := by
            simp [do_query_extended, hu, he]
          rw [hd] at h
          simp at h
          exact ⟨qr, h.symm⟩

/-- C10 witness: the theorem applied to an upstream with an empty row set:
the response is still a Query row set. -/
theorem c10_extended_always_query_witness :
    ∃ qr : QueryResponse,
      ExtResponse.Query { schema := proxySchema, rows := [] } = ExtResponse.Query qr :=
  c10_extended_always_query (fun _ _ => Except.ok []) portalSel 0
    (ExtResponse.Query { schema := proxySchema, rows := [] }) rfl

end PgProxy
